import Mathlib

/-!
Verification of the `cf-social-media-api` worker (`src/lib.rs`).

The worker is a small feed service over a key-value store with four
relevant routes: `GET /posts`, `POST /posts`, `POST /updatelikes` and
`POST /users`.  We embed the JSON values the handlers manipulate, the
per-namespace key-value store, and each handler as a pure function from
the parsed request body plus an environment (server clock, request
cookie, the external auth service's responses) to an outcome (HTTP
response or panic) together with the stores after the call and flags
recording which external calls were made.
-/

namespace CfSocialMedia

/-- JSON values as parsed by `serde_json::Value`. -/
inductive Json where
  | null : Json
  | bool (b : Bool) : Json
  | num (n : Int) : Json
  | str (s : String) : Json
  | arr (xs : List Json) : Json
  | obj (fields : List (String × Json)) : Json
deriving Repr

/-- One hex digit, lowercase, as used by serde_json's `\u00XX` escapes. -/
def hexDigit (n : Nat) : Char :=
  if n < 10 then Char.ofNat (48 + n) else Char.ofNat (87 + n)

/-- serde_json's escaping of a single character inside a JSON string. -/
def escapeChar (c : Char) : String :=
  if c = '"' then "\\\""
  else if c = '\\' then "\\\\"
  else if c = Char.ofNat 8 then "\\b"
  else if c = Char.ofNat 9 then "\\t"
  else if c = Char.ofNat 10 then "\\n"
  else if c = Char.ofNat 12 then "\\f"
  else if c = Char.ofNat 13 then "\\r"
  else if c.toNat < 32 then
    "\\u00" ++ String.singleton (hexDigit (c.toNat / 16))
            ++ String.singleton (hexDigit (c.toNat % 16))
  else String.singleton c

/-- serde_json's escaping of the contents of a JSON string. -/
def escape (s : String) : String :=
  String.join (s.data.map escapeChar)

mutual

/-- Compact serialization of a JSON value, as `Value::to_string()` /
`format!("\x7b\x7d", value)` produce it. -/
def jsonToString : Json → String
  | .null => "null"
  | .bool b => cond b "true" "false"
  | .num n => toString n
  | .str s => "\"" ++ escape s ++ "\""
  | .arr xs => "[" ++ jsonArrToString xs ++ "]"
  | .obj fs => "\x7b" ++ jsonObjToString fs ++ "\x7d"

/-- Comma-separated serialization of array elements. -/
def jsonArrToString : List Json → String
  | [] => ""
  | [x] => jsonToString x
  | x :: y :: rest => jsonToString x ++ "," ++ jsonArrToString (y :: rest)

/-- Comma-separated serialization of object fields. -/
def jsonObjToString : List (String × Json) → String
  | [] => ""
  | [(k, v)] => "\"" ++ escape k ++ "\":" ++ jsonToString v
  | (k, v) :: p :: rest =>
      "\"" ++ escape k ++ "\":" ++ jsonToString v ++ "," ++ jsonObjToString (p :: rest)

end

/-- `Value::get(key)` / `Value::get_mut(key)` presence: `some` exactly when
the value is an object carrying the field. -/
def Json.getField : Json → String → Option Json
  | .obj fs, k => (fs.find? (fun p => p.1 = k)).map (fun p => p.2)
  | _, _ => none

/-- Replace the value of field `k` in a field list (first occurrence). -/
def setFieldList (fs : List (String × Json)) (k : String) (v : Json) :
    List (String × Json) :=
  match fs with
  | [] => []
  | (k', v') :: rest =>
      if k' = k then (k', v) :: rest else (k', v') :: setFieldList rest k v

/-- `*value.get_mut(k).unwrap() = v` — in-place update of an object field
(the handlers only perform it after checking the field is present). -/
def Json.setField : Json → String → Json → Json
  | .obj fs, k, v => .obj (setFieldList fs k v)
  | j, _, _ => j

/-- Rust `String::pop()`: drop the last character (no-op on the empty
string). -/
def rustPop (s : String) : String :=
  String.mk s.data.dropLast

/-- Rust `String::remove(0)`: drop the first character, panicking (modelled
as `none`) on the empty string. -/
def rustRemove0 (s : String) : Option String :=
  match s.data with
  | [] => none
  | _ :: rest => some (String.mk rest)

/-- The quote-stripping idiom `s.pop(); s.remove(0);` used on
`Value::to_string()` output: `none` exactly when `remove(0)` would panic. -/
def stripQuotes (s : String) : Option String :=
  rustRemove0 (rustPop s)

/-- A key-value namespace, newest binding first. -/
abbrev KV := List (String × String)

namespace KV

/-- `kv.get(key)`: the current value bound to `key`, if any. -/
def get (kv : KV) (k : String) : Option String :=
  match kv with
  | [] => none
  | (k', v) :: rest => if k' = k then some v else get rest k

/-- `kv.delete(key)`: remove every binding of `key` (idempotent). -/
def delete (kv : KV) (k : String) : KV :=
  match kv with
  | [] => []
  | (k', v) :: rest =>
      if k' = k then delete rest k else (k', v) :: delete rest k

/-- `kv.put(key, value)`: last-write-wins overwrite of `key`. -/
def put (kv : KV) (k v : String) : KV :=
  (k, v) :: delete kv k

/-- `kv.list()`: the listed key names. -/
def keys (kv : KV) : List String :=
  kv.map (fun p => p.1)

end KV

/-- The per-request environment of `POST /posts`: the server clock
(`Utc::now().to_rfc3339()`), the request's `set-cookie` header, and the
external auth service's responses (`/verify` body, `/auth/\x7busername\x7d`
`set-cookie` response header). -/
structure AuthEnv where
  now : String
  reqCookie : Option String
  verifyBody : String
  authSetCookie : Option String
deriving Repr

/-- Outcome of a handler: an HTTP response (status, body, optional
`Set-Cookie` header) or a Rust panic. -/
inductive Outcome where
  | response (status : Nat) (body : String) (setCookie : Option String) : Outcome
  | crash (msg : String) : Outcome
deriving Repr, DecidableEq

/-- The status code of an outcome, `none` on panic. -/
def Outcome.status : Outcome → Option Nat
  | .response s _ _ => some s
  | .crash _ => none

/-- Result of the `POST /posts` handler: outcome, both namespaces after the
call, and which external auth calls were made. -/
structure PostsResult where
  outcome : Outcome
  posts : KV
  users : KV
  verifyCalled : Bool
  authCalled : Bool
deriving Repr

/-- The tail of the `POST /posts` handler, from the `GET /auth/\x7busername\x7d`
call on: reads the auth server's `set-cookie` header (unconditional
`unwrap`), stores the post under `now + "-" + username`, and answers 200
with the serialized post and the forwarded `Set-Cookie` header. -/
def postPostsFinish (newPost : Json) (username : String) (env : AuthEnv)
    (posts users : KV) (verifyCalled : Bool) : PostsResult :=
  match env.authSetCookie with
  | none =>
      { outcome := .crash "set-cookie header unwrap"
        posts := posts, users := users
        verifyCalled := verifyCalled, authCalled := true }
  | some sc =>
      let newPostString := jsonToString newPost
      { outcome := .response 200 newPostString (some sc)
        posts := KV.put posts (env.now ++ "-" ++ username) newPostString
        users := users
        verifyCalled := verifyCalled, authCalled := true }

/-- The `POST /posts` handler (`post_async("/posts", ...)`): stamps
`time` with the server clock (unconditional `get_mut("time").unwrap()`),
extracts the username (empty string when absent) and strips its quotes
(`pop` + `remove(0)`), verifies via the auth service when the forwarded
cookie is non-empty (mismatch → `Response::error(.., 400)`), then runs
`postPostsFinish`. -/
def postPostsHandler (body : Json) (env : AuthEnv) (posts users : KV) :
    PostsResult :=
  let reqCookie := env.reqCookie.getD ""
  match body.getField "time" with
  | none =>
      { outcome := .crash "get_mut time unwrap"
        posts := posts, users := users
        verifyCalled := false, authCalled := false }
  | some _ =>
      let newPost := body.setField "time" (.str env.now)
      let rawName :=
        match newPost.getField "username" with
        | some n => jsonToString n
        | none => ""
      match stripQuotes rawName with
      | none =>
          { outcome := .crash "username remove(0) on empty string"
            posts := posts, users := users
            verifyCalled := false, authCalled := false }
      | some username =>
          if 0 < reqCookie.length then
            if env.verifyBody ≠ username then
              { outcome := .response 400 "Could not verify user" none
                posts := posts, users := users
                verifyCalled := true, authCalled := false }
            else
              postPostsFinish newPost username env posts users true
          else
            postPostsFinish newPost username env posts users false

/-- The key reconstruction of the `POST /updatelikes` handler: unwrap the
body as an object, take `username` and `time` via `to_string()` plus
quote-stripping, and join them as `time + "-" + username`; `none` at any
panic point. -/
def updateLikesKey (body : Json) : Option String :=
  match body with
  | .obj _ =>
      match body.getField "username" with
      | none => none
      | some nj =>
          match stripQuotes (jsonToString nj) with
          | none => none
          | some username =>
              match body.getField "time" with
              | none => none
              | some tj =>
                  match stripQuotes (jsonToString tj) with
                  | none => none
                  | some time => some (time ++ "-" ++ username)
  | _ => none

/-- Result of a handler that touches a single namespace. -/
structure StoreResult where
  outcome : Outcome
  store : KV
deriving Repr

/-- The `POST /updatelikes` handler: reconstructs the key from the body's
own `time` and `username`, deletes it, writes the full body back under the
same key and echoes the body with status 200. -/
def updateLikesHandler (body : Json) (posts : KV) : StoreResult :=
  match updateLikesKey body with
  | none => { outcome := .crash "updatelikes unwrap", store := posts }
  | some key =>
      let newPostString := jsonToString body
      { outcome := .response 200 newPostString none
        store := KV.put (KV.delete posts key) key newPostString }

/-- The `POST /users` handler: unwraps the body as an object, unwraps its
`username` field, strips the quotes, and unconditionally puts
`username ↦ now` into the `users` namespace, echoing the body. -/
def postUsersHandler (body : Json) (now : String) (users : KV) : StoreResult :=
  match body with
  | .obj _ =>
      match body.getField "username" with
      | none => { outcome := .crash "users username unwrap", store := users }
      | some nj =>
          match stripQuotes (jsonToString nj) with
          | none => { outcome := .crash "users remove(0) on empty string", store := users }
          | some username =>
              { outcome := .response 200 (jsonToString body) none
                store := KV.put users username now }
  | _ => { outcome := .crash "users as_object unwrap", store := users }

/-- What `GET /posts` sees of the posts namespace: the key listing and the
per-key fetch (which, on the eventually-consistent store, may miss a
listed key). -/
structure StoreView where
  keys : List String
  fetch : String → Option String

/-- The accumulation loop of `GET /posts`: for each listed key,
`kv.get(..).await.unwrap().unwrap().as_string()` then `json!(value)` —
i.e. each element pushed is the raw stored text as a JSON string.  `none`
at the first key whose fetch misses (the second `unwrap` panics). -/
def collectPosts (ks : List String) (fetch : String → Option String) :
    Option (List Json) :=
  match ks with
  | [] => some []
  | k :: rest =>
      match fetch k with
      | none => none
      | some v => (collectPosts rest fetch).map (fun js => Json.str v :: js)

/-- The `GET /posts` handler: 200 with the JSON array of collected
elements, or a panic when some listed key has no value. -/
def getPostsHandler (s : StoreView) : Outcome :=
  match collectPosts s.keys s.fetch with
  | none => .crash "get unwrap"
  | some posts => .response 200 (jsonToString (Json.arr posts)) none

/-! ### Concrete sample requests (used to instantiate the theorems) -/

/-- A well-formed create-post request body for user `alice` (the caller
supplies a `time` placeholder, as the handler requires — see C9). -/
def sampleBody : Json :=
  Json.obj [("content", .str "hello"), ("time", .str "t0"),
            ("title", .str "hi"), ("username", .str "alice")]

/-- A create-post request body carrying no `username` field. -/
def missingNameBody : Json :=
  Json.obj [("content", .str "c"), ("time", .str "x"), ("title", .str "t")]

/-- A create-post request body carrying no `time` field. -/
def missingTimeBody : Json :=
  Json.obj [("content", .str "c"), ("title", .str "t"), ("username", .str "alice")]

/-- An update-likes request body: the full post, likes already bumped. -/
def likesBody : Json :=
  Json.obj [("content", .str "hello"), ("likes", .num 3),
            ("time", .str "2024-01-01T00:00:00+00:00"),
            ("title", .str "hi"), ("username", .str "alice")]

/-- A registration request body for `alice`. -/
def userBody : Json := Json.obj [("username", .str "alice")]

/-- Environment of a request that carries no cookie. -/
def sampleEnvNoCookie : AuthEnv :=
  { now := "2024-01-01T00:00:00+00:00", reqCookie := none,
    verifyBody := "", authSetCookie := some "sid=abc123" }

/-- Environment of a request whose cookie fails verification: `/verify`
answers `bob` while the body claims `alice`. -/
def sampleEnvMismatch : AuthEnv :=
  { now := "2024-01-01T00:00:00+00:00", reqCookie := some "sid=abc123",
    verifyBody := "bob", authSetCookie := some "sid=abc123" }

/-- Environment of a request whose cookie verifies: `/verify` answers the
claimed username `alice`. -/
def sampleEnvMatch : AuthEnv :=
  { now := "2024-01-01T00:00:00+00:00", reqCookie := some "sid=abc123",
    verifyBody := "alice", authSetCookie := some "sid=abc123" }

/-- A store view with one listed key whose value is the raw text of a
stored post JSON. -/
def rawValueStore : StoreView :=
  { keys := ["k"]
    fetch := fun k => if k = "k" then some "\x7b\"t\":\"u\"\x7d" else none }

/-- A store view listing a key that has no retrievable value. -/
def missingValueStore : StoreView :=
  { keys := ["k"], fetch := fun _ => none }

/-! ### Field lookup / update lemmas -/

theorem setFieldList_find?_self (fs : List (String × Json)) (k : String) (v : Json)
    (h : (fs.find? (fun p => p.1 = k)).isSome) :
    ((setFieldList fs k v).find? (fun p => p.1 = k)).map (fun p => p.2) = some v := by
  induction fs with
  | nil => simp [List.find?] at h
  | cons p rest ih =>
    by_cases hp : p.1 = k
    · simp [setFieldList, hp, List.find?_cons_of_pos]
    · rw [List.find?_cons_of_neg _ (by simpa using hp)] at h
      simp only [setFieldList, if_neg hp]
      rw [List.find?_cons_of_neg _ (by simpa using hp)]
      exact ih h

theorem setFieldList_find?_ne (fs : List (String × Json)) (k k' : String) (v : Json)
    (h : k' ≠ k) :
    (setFieldList fs k v).find? (fun p => p.1 = k') = fs.find? (fun p => p.1 = k') := by
  induction fs with
  | nil => rfl
  | cons p rest ih =>
    by_cases hp : p.1 = k
    · have hk' : ¬ p.1 = k' := fun hc => h (hc ▸ hp ▸ rfl)
      simp only [setFieldList, if_pos hp]
      rw [List.find?_cons_of_neg _ (by simpa using hk'),
        List.find?_cons_of_neg _ (by simpa using hk')]
    · by_cases hq : p.1 = k'
      · simp only [setFieldList, if_neg hp]
        rw [List.find?_cons_of_pos _ (by simpa using hq),
          List.find?_cons_of_pos _ (by simpa using hq)]
      · simp only [setFieldList, if_neg hp]
        rw [List.find?_cons_of_neg _ (by simpa using hq),
          List.find?_cons_of_neg _ (by simpa using hq)]
        exact ih

theorem getField_setField_self (body : Json) (k : String) (v t0 : Json)
    (h : body.getField k = some t0) :
    (body.setField k v).getField k = some v := by
  cases body with
  | obj fs =>
      simp only [Json.getField, Json.setField]
      apply setFieldList_find?_self
      simp only [Json.getField] at h
      cases hf : fs.find? (fun p => p.1 = k) with
      | none => rw [hf] at h; simp at h
      | some q => simp
  | null => simp [Json.getField] at h
  | bool b => simp [Json.getField] at h
  | num n => simp [Json.getField] at h
  | str s => simp [Json.getField] at h
  | arr xs => simp [Json.getField] at h

theorem getField_setField_ne (body : Json) (k k' : String) (v : Json)
    (h : k' ≠ k) :
    (body.setField k v).getField k' = body.getField k' := by
  cases body with
  | obj fs => simp only [Json.getField, Json.setField, setFieldList_find?_ne fs k k' v h]
  | null => rfl
  | bool b => rfl
  | num n => rfl
  | str s => rfl
  | arr xs => rfl

/-! ### Key-value store lemmas -/

namespace KV

theorem get_delete_self (kv : KV) (k : String) : get (delete kv k) k = none := by
  induction kv with
  | nil => rfl
  | cons p rest ih =>
    obtain ⟨pk, pv⟩ := p
    by_cases hp : pk = k
    · simpa [delete, hp] using ih
    · simpa [delete, get, hp] using ih

theorem get_delete_ne (kv : KV) (k k' : String) (h : k' ≠ k) :
    get (delete kv k) k' = get kv k' := by
  induction kv with
  | nil => rfl
  | cons p rest ih =>
    obtain ⟨pk, pv⟩ := p
    have hkk : ¬ k = k' := fun hc => h hc.symm
    by_cases hp : pk = k
    · have hq : ¬ pk = k' := fun hc => h (hc ▸ hp ▸ rfl)
      simpa [delete, get, hp, hq, hkk] using ih
    · by_cases hq : pk = k'
      · simp [delete, get, hp, hq, h]
      · simpa [delete, get, hp, hq] using ih

theorem get_put_self (kv : KV) (k v : String) : get (put kv k v) k = some v := by
  simp [put, get]

theorem get_put_ne (kv : KV) (k k' v : String) (h : k' ≠ k) :
    get (put kv k v) k' = get kv k' := by
  have : ¬ k = k' := fun hc => h hc.symm
  simp [put, get, this, get_delete_ne kv k k' h]

theorem keys_delete (kv : KV) (k : String) :
    keys (delete kv k) = (keys kv).filter (fun x => x ≠ k) := by
  induction kv with
  | nil => rfl
  | cons p rest ih =>
    obtain ⟨pk, pv⟩ := p
    by_cases hp : pk = k
    · simpa [delete, keys, hp, List.filter] using ih
    · simpa [delete, keys, hp, List.filter] using ih

theorem count_keys_put (kv : KV) (k v : String) :
    ((keys (put kv k v)).count k) = 1 := by
  simp only [put, keys, List.map_cons, List.count_cons_self]
  have : (keys (delete kv k)).count k = 0 := by
    rw [keys_delete]
    simp [List.count_eq_zero, List.mem_filter]
  simpa [keys] using this

theorem nodup_keys_delete (kv : KV) (k : String) (h : (keys kv).Nodup) :
    (keys (delete kv k)).Nodup := by
  rw [keys_delete]; exact h.filter _

theorem not_mem_keys_delete (kv : KV) (k : String) :
    k ∉ keys (delete kv k) := by
  rw [keys_delete]
  intro hm
  rcases List.mem_filter.mp hm with ⟨-, hv⟩
  simp at hv

theorem nodup_keys_put (kv : KV) (k v : String) (h : (keys kv).Nodup) :
    (keys (put kv k v)).Nodup := by
  simp only [put, keys, List.map_cons, List.nodup_cons]
  exact ⟨not_mem_keys_delete kv k, nodup_keys_delete kv k h⟩

end KV

/-! ### String and collection helper lemmas -/

theorem length_pos_of_ne_empty (s : String) (h : s ≠ "") : 0 < s.length := by
  cases s with
  | mk data =>
    cases data with
    | nil => exact absurd rfl h
    | cons c cs => simp [String.length]

theorem collectPosts_eq_none (ks : List String) (f : String → Option String)
    (k : String) (hk : k ∈ ks) (hf : f k = none) :
    collectPosts ks f = none := by
  induction ks with
  | nil => cases hk
  | cons a rest ih =>
    cases hk with
    | head => simp [collectPosts, hf]
    | tail _ hm =>
      cases ha : f a with
      | none => simp [collectPosts, ha]
      | some v => simp [collectPosts, ha, ih hm]

theorem collectPosts_eq_some (ks : List String) (f : String → Option String)
    (h : ∀ k ∈ ks, (f k).isSome) :
    collectPosts ks f = some (ks.map (fun k => Json.str ((f k).getD ""))) := by
  induction ks with
  | nil => rfl
  | cons a rest ih =>
    have ha := h a (List.mem_cons_self a rest)
    cases hfa : f a with
    | none => rw [hfa] at ha; simp at ha
    | some v =>
      have hr := ih (fun k hk => h k (List.mem_cons_of_mem a hk))
      simp [collectPosts, hfa, hr]

theorem collectPosts_isSome_iff (ks : List String) (f : String → Option String) :
    (collectPosts ks f).isSome ↔ ∀ k ∈ ks, (f k).isSome := by
  induction ks with
  | nil => simp [collectPosts]
  | cons a rest ih =>
    cases hfa : f a with
    | none => simp [collectPosts, hfa, List.forall_mem_cons]
    | some v => simp [collectPosts, hfa, List.forall_mem_cons, ih]

/-! ### The success path of `POST /posts` -/

theorem postPosts_spec (body : Json) (env : AuthEnv) (posts users : KV)
    (t0 nj : Json) (uname sc : String)
    (ht : body.getField "time" = some t0)
    (hn : body.getField "username" = some nj)
    (hs : stripQuotes (jsonToString nj) = some uname)
    (hv : env.reqCookie.getD "" = "" ∨ env.verifyBody = uname)
    (hsc : env.authSetCookie = some sc) :
    postPostsHandler body env posts users =
      { outcome := .response 200 (jsonToString (body.setField "time" (.str env.now))) (some sc)
        posts := KV.put posts (env.now ++ "-" ++ uname)
                   (jsonToString (body.setField "time" (.str env.now)))
        users := users
        verifyCalled := decide (0 < (env.reqCookie.getD "").length)
        authCalled := true } := by
  have hn' : (body.setField "time" (Json.str env.now)).getField "username" = some nj := by
    rw [getField_setField_ne body "time" "username" (Json.str env.now) (by decide)]
    exact hn
  by_cases hc : 0 < (env.reqCookie.getD "").length
  · have hvb : env.verifyBody = uname := by
      rcases hv with hempty | hvb
      · rw [hempty] at hc; simp at hc
      · exact hvb
    simp [postPostsHandler, ht, hn', hs, hvb, hc, postPostsFinish, hsc]
  · simp [postPostsHandler, ht, hn', hs, hc, postPostsFinish, hsc]

theorem postPosts_verifyCalled (body : Json) (env : AuthEnv) (posts users : KV)
    (t0 nj : Json) (uname : String)
    (ht : body.getField "time" = some t0)
    (hn : body.getField "username" = some nj)
    (hs : stripQuotes (jsonToString nj) = some uname) :
    (postPostsHandler body env posts users).verifyCalled =
      decide (0 < (env.reqCookie.getD "").length) := by
  have hn' : (body.setField "time" (Json.str env.now)).getField "username" = some nj := by
    rw [getField_setField_ne body "time" "username" (Json.str env.now) (by decide)]
    exact hn
  by_cases hc : 0 < (env.reqCookie.getD "").length
  · by_cases hm : env.verifyBody = uname
    · cases hsc : env.authSetCookie with
      | none => simp [postPostsHandler, ht, hn', hs, hc, hm, postPostsFinish, hsc]
      | some sc => simp [postPostsHandler, ht, hn', hs, hc, hm, postPostsFinish, hsc]
    · simp [postPostsHandler, ht, hn', hs, hc, hm]
  · cases hsc : env.authSetCookie with
    | none => simp [postPostsHandler, ht, hn', hs, hc, postPostsFinish, hsc]
    | some sc => simp [postPostsHandler, ht, hn', hs, hc, postPostsFinish, hsc]

/-! ### Claim theorems -/

/-- C9: a `POST /posts` body with no `time` field makes the handler panic
at the unconditional `get_mut("time").unwrap()` — no HTTP (error) response
is produced and no key-value write occurs; hence a request the handler
completes normally must have carried a client-supplied `time` field. -/
theorem C9_missing_time_crashes (body : Json) (env : AuthEnv) (posts users : KV)
    (h : body.getField "time" = none) :
    postPostsHandler body env posts users =
      { outcome := .crash "get_mut time unwrap"
        posts := posts, users := users
        verifyCalled := false, authCalled := false } ∧
    (postPostsHandler body env posts users).outcome.status = none := by
  have h1 : postPostsHandler body env posts users =
      { outcome := .crash "get_mut time unwrap"
        posts := posts, users := users
        verifyCalled := false, authCalled := false } := by
    simp [postPostsHandler, h]
  exact ⟨h1, by rw [h1]; rfl⟩

/-- Witness for C9: a concrete body with no `time` field crashes the
handler and leaves both namespaces untouched. -/
theorem C9_missing_time_crashes_witness :
    postPostsHandler missingTimeBody sampleEnvNoCookie [] [] =
      { outcome := .crash "get_mut time unwrap"
        posts := [], users := []
        verifyCalled := false, authCalled := false } ∧
    (postPostsHandler missingTimeBody sampleEnvNoCookie [] []).outcome.status = none :=
  C9_missing_time_crashes missingTimeBody sampleEnvNoCookie [] [] rfl

/-- C2 (code bug): a `POST /posts` body lacking `username` does not get the
400 validation response — the handler substitutes the empty string for the
missing name and then panics at `username.remove(0)`; no key-value write
occurs and no status-400 response is produced. -/
theorem C2_missing_username_crashes :
    postPostsHandler missingNameBody sampleEnvNoCookie [] [] =
      { outcome := .crash "username remove(0) on empty string"
        posts := [], users := []
        verifyCalled := false, authCalled := false } ∧
    (postPostsHandler missingNameBody sampleEnvNoCookie [] []).outcome.status ≠ some 400 :=
  ⟨rfl, by decide⟩

/-- C10: in `GET /posts`, a listed key with no retrievable value makes the
handler panic at the unconditional `unwrap`; the handler answers 200
exactly when every listed key's get yields a value. -/
theorem C10_missing_value_crashes (s : StoreView) :
    ((∃ k, k ∈ s.keys ∧ s.fetch k = none) → getPostsHandler s = .crash "get unwrap") ∧
    ((getPostsHandler s).status = some 200 ↔ ∀ k ∈ s.keys, (s.fetch k).isSome) := by
  constructor
  · rintro ⟨k, hk, hf⟩
    simp [getPostsHandler, collectPosts_eq_none s.keys s.fetch k hk hf]
  · cases hcp : collectPosts s.keys s.fetch with
    | none =>
      have h2 := (collectPosts_isSome_iff s.keys s.fetch).symm
      rw [hcp] at h2
      simp at h2
      simp [getPostsHandler, hcp, Outcome.status, h2]
    | some l =>
      have h2 := collectPosts_isSome_iff s.keys s.fetch
      rw [hcp] at h2
      simp at h2
      simp [getPostsHandler, hcp, Outcome.status]
      exact h2

/-- Witness for C10: a store view listing key `k` with no value crashes
`GET /posts`. -/
theorem C10_missing_value_crashes_witness :
    getPostsHandler missingValueStore = .crash "get unwrap" :=
  (C10_missing_value_crashes missingValueStore).1 ⟨"k", by simp [missingValueStore], rfl⟩

/-- C5 counterexample: with one stored post `\x7b"t":"u"\x7d`, the `GET /posts`
body is the JSON array of the raw stored string — not the serialization of
the array of decoded post objects the claim describes. -/
theorem C5_raw_string_not_decoded :
    getPostsHandler rawValueStore =
      .response 200 (jsonToString (Json.arr [Json.str "\x7b\"t\":\"u\"\x7d"])) none ∧
    jsonToString (Json.arr [Json.str "\x7b\"t\":\"u\"\x7d"]) ≠
      jsonToString (Json.arr [Json.obj [("t", Json.str "u")]]) :=
  ⟨rfl, by decide⟩

/-- C5 (amended): `GET /posts` answers 200 with a JSON array holding one
element per listed key, but each element is the raw stored JSON text
re-wrapped as a JSON string (`json!(value)` on a `String`), not the
decoded post object. -/
theorem C5_get_posts_raw_strings (s : StoreView)
    (h : s.keys.all (fun k => (s.fetch k).isSome) = true) :
    getPostsHandler s =
      .response 200
        (jsonToString (Json.arr (s.keys.map (fun k => Json.str ((s.fetch k).getD ""))))) none := by
  have h' : ∀ k ∈ s.keys, (s.fetch k).isSome := by
    intro k hk
    simpa using List.all_eq_true.mp h k hk
  simp [getPostsHandler, collectPosts_eq_some s.keys s.fetch h']

/-- Witness for C5 at the one-key store view. -/
theorem C5_get_posts_raw_strings_witness :
    getPostsHandler rawValueStore =
      .response 200
        (jsonToString (Json.arr (rawValueStore.keys.map
          (fun k => Json.str ((rawValueStore.fetch k).getD ""))))) none :=
  C5_get_posts_raw_strings rawValueStore (by decide)

/-- C1 counterexample: at a concrete mismatching `/verify` response the
rejection status is 400, not the claimed 401. -/
theorem C1_status_400_not_401 :
    (postPostsHandler sampleBody sampleEnvMismatch [] []).outcome.status = some 400 ∧
    (postPostsHandler sampleBody sampleEnvMismatch [] []).outcome.status ≠ some 401 :=
  ⟨rfl, by decide⟩

/-- C1 (amended): with a non-empty forwarded cookie, a `/verify` body
different from the claimed username is rejected with status 400 — not 401 —
and no key-value write occurs; a `/verify` body equal to the claimed
username lets the request succeed with status 200. -/
theorem C1_verify_gate (body : Json) (env : AuthEnv) (posts users : KV)
    (t0 nj : Json) (uname c : String)
    (ht : body.getField "time" = some t0)
    (hn : body.getField "username" = some nj)
    (hs : stripQuotes (jsonToString nj) = some uname)
    (hcookie : env.reqCookie = some c)
    (hlen : 0 < c.length) :
    (env.verifyBody ≠ uname →
      postPostsHandler body env posts users =
        { outcome := .response 400 "Could not verify user" none
          posts := posts, users := users
          verifyCalled := true, authCalled := false }) ∧
    (∀ sc, env.verifyBody = uname → env.authSetCookie = some sc →
      (postPostsHandler body env posts users).outcome =
        .response 200 (jsonToString (body.setField "time" (.str env.now))) (some sc)) := by
  have hn' : (body.setField "time" (Json.str env.now)).getField "username" = some nj := by
    rw [getField_setField_ne body "time" "username" (Json.str env.now) (by decide)]
    exact hn
  constructor
  · intro hne
    simp [postPostsHandler, ht, hn', hs, hcookie, hlen, hne]
  · intro sc hvb hsc
    rw [postPosts_spec body env posts users t0 nj uname sc ht hn hs (Or.inr hvb) hsc]

/-- Witness for C1: with the cookie present and `/verify` answering the
claimed username `alice`, the concrete request succeeds with 200. -/
theorem C1_verify_gate_witness :
    (postPostsHandler sampleBody sampleEnvMatch [] []).outcome =
      .response 200 (jsonToString (sampleBody.setField "time" (.str sampleEnvMatch.now)))
        (some "sid=abc123") :=
  (C1_verify_gate sampleBody sampleEnvMatch [] [] (Json.str "t0") (Json.str "alice")
    "alice" "sid=abc123" rfl rfl rfl rfl (by decide)).2 "sid=abc123" rfl rfl

/-- C4 counterexample: `alice` is absent from the users registry; her first
post succeeds (200) yet the registry stays empty — no register put is
performed, contradicting the claimed exactly-one registration. -/
theorem C4_no_register_on_first_post :
    (postPostsHandler sampleBody sampleEnvNoCookie [] []).outcome.status = some 200 ∧
    (postPostsHandler sampleBody sampleEnvNoCookie [] []).users = [] ∧
    KV.get (postPostsHandler sampleBody sampleEnvNoCookie [] []).users "alice" = none :=
  ⟨rfl, rfl, rfl⟩

/-- C4 (amended): `POST /posts` never touches the users registry — no
local register put occurs on a first or any later post (`add_user` and
`check_user` are defined but never called) — and the external auth
registration endpoint is called on every completed request, regardless of
whether the username was seen before, its `Set-Cookie` relayed onto the
response. -/
theorem C4_registry_untouched_auth_every_time (body : Json) (env : AuthEnv)
    (posts users : KV) (t0 nj : Json) (uname sc : String)
    (ht : body.getField "time" = some t0)
    (hn : body.getField "username" = some nj)
    (hs : stripQuotes (jsonToString nj) = some uname)
    (hv : env.reqCookie.getD "" = "" ∨ env.verifyBody = uname)
    (hsc : env.authSetCookie = some sc) :
    (postPostsHandler body env posts users).users = users ∧
    (postPostsHandler body env posts users).authCalled = true ∧
    (postPostsHandler body env posts users).outcome =
      .response 200 (jsonToString (body.setField "time" (.str env.now))) (some sc) := by
  rw [postPosts_spec body env posts users t0 nj uname sc ht hn hs hv hsc]
  exact ⟨rfl, rfl, rfl⟩

/-- Witness for C4: even with `alice` already in the registry, a further
post leaves the registry untouched and still calls the external auth
endpoint. -/
theorem C4_registry_untouched_witness :
    (postPostsHandler sampleBody sampleEnvNoCookie [] [("alice", "t-reg")]).users =
      [("alice", "t-reg")] ∧
    (postPostsHandler sampleBody sampleEnvNoCookie [] [("alice", "t-reg")]).authCalled = true ∧
    (postPostsHandler sampleBody sampleEnvNoCookie [] [("alice", "t-reg")]).outcome =
      .response 200 (jsonToString (sampleBody.setField "time" (.str sampleEnvNoCookie.now)))
        (some "sid=abc123") :=
  C4_registry_untouched_auth_every_time sampleBody sampleEnvNoCookie []
    [("alice", "t-reg")] (Json.str "t0") (Json.str "alice") "alice" "sid=abc123"
    rfl rfl rfl (Or.inl rfl) rfl

/-- C6: with a well-formed body, `POST /posts` with no (or empty) forwarded
cookie proceeds to store the post without calling `/verify`; the `/verify`
call happens exactly when the forwarded cookie is non-empty. -/
theorem C6_verify_iff_cookie (body : Json) (env : AuthEnv) (posts users : KV)
    (t0 nj : Json) (uname sc : String)
    (ht : body.getField "time" = some t0)
    (hn : body.getField "username" = some nj)
    (hs : stripQuotes (jsonToString nj) = some uname)
    (hsc : env.authSetCookie = some sc) :
    (env.reqCookie.getD "" = "" →
      postPostsHandler body env posts users =
        { outcome := .response 200 (jsonToString (body.setField "time" (.str env.now))) (some sc)
          posts := KV.put posts (env.now ++ "-" ++ uname)
                     (jsonToString (body.setField "time" (.str env.now)))
          users := users
          verifyCalled := false, authCalled := true }) ∧
    ((postPostsHandler body env posts users).verifyCalled = true ↔
      env.reqCookie.getD "" ≠ "") := by
  constructor
  · intro hempty
    rw [postPosts_spec body env posts users t0 nj uname sc ht hn hs (Or.inl hempty) hsc]
    simp [hempty]
  · rw [postPosts_verifyCalled body env posts users t0 nj uname ht hn hs]
    simp only [decide_eq_true_eq]
    constructor
    · intro hd hempty
      rw [hempty] at hd
      exact absurd hd (by decide)
    · exact fun hne => length_pos_of_ne_empty _ hne

/-- Witness for C6: the concrete no-cookie request stores the post and
never calls `/verify`. -/
theorem C6_verify_iff_cookie_witness :
    postPostsHandler sampleBody sampleEnvNoCookie [] [] =
      { outcome := .response 200
          (jsonToString (sampleBody.setField "time" (.str sampleEnvNoCookie.now)))
          (some "sid=abc123")
        posts := KV.put [] (sampleEnvNoCookie.now ++ "-" ++ "alice")
                   (jsonToString (sampleBody.setField "time" (.str sampleEnvNoCookie.now)))
        users := []
        verifyCalled := false, authCalled := true } :=
  (C6_verify_iff_cookie sampleBody sampleEnvNoCookie [] [] (Json.str "t0") (Json.str "alice")
    "alice" "sid=abc123" rfl rfl rfl rfl).1 rfl

/-- C3: for a valid body (object with a `time` field present and a
username), the creation handler stamps the server time over whatever the
caller sent, returns the stored post including that time, and stores it
under `now + "-" + username` — a deterministic composite reproducible from
the stored post's own `time` and `username` fields alone: the like-update
key reconstruction yields exactly the creation key. -/
theorem C3_key_reconstruction (body : Json) (env : AuthEnv) (posts users : KV)
    (t0 nj : Json) (uname sc : String)
    (ht : body.getField "time" = some t0)
    (hn : body.getField "username" = some nj)
    (hs : stripQuotes (jsonToString nj) = some uname)
    (_hune : uname ≠ "")
    (hnow : stripQuotes (jsonToString (Json.str env.now)) = some env.now)
    (hv : env.reqCookie.getD "" = "" ∨ env.verifyBody = uname)
    (hsc : env.authSetCookie = some sc) :
    (body.setField "time" (Json.str env.now)).getField "time" = some (Json.str env.now) ∧
    (postPostsHandler body env posts users).outcome =
      .response 200 (jsonToString (body.setField "time" (Json.str env.now))) (some sc) ∧
    (postPostsHandler body env posts users).posts =
      KV.put posts (env.now ++ "-" ++ uname)
        (jsonToString (body.setField "time" (Json.str env.now))) ∧
    updateLikesKey (body.setField "time" (Json.str env.now)) =
      some (env.now ++ "-" ++ uname) := by
  have htt : (body.setField "time" (Json.str env.now)).getField "time" =
      some (Json.str env.now) := getField_setField_self body "time" (Json.str env.now) t0 ht
  have hn' : (body.setField "time" (Json.str env.now)).getField "username" = some nj := by
    rw [getField_setField_ne body "time" "username" (Json.str env.now) (by decide)]
    exact hn
  refine ⟨htt, ?_, ?_, ?_⟩
  · rw [postPosts_spec body env posts users t0 nj uname sc ht hn hs hv hsc]
  · rw [postPosts_spec body env posts users t0 nj uname sc ht hn hs hv hsc]
  · cases body with
    | obj fs =>
        simp only [Json.setField] at htt hn' ⊢
        simp [updateLikesKey, hn', hs, htt, hnow]
    | null => simp [Json.getField] at hn
    | bool b => simp [Json.getField] at hn
    | num n => simp [Json.getField] at hn
    | str s => simp [Json.getField] at hn
    | arr xs => simp [Json.getField] at hn

/-- Witness for C3 at the concrete `alice` request without a cookie. -/
theorem C3_key_reconstruction_witness :
    (sampleBody.setField "time" (Json.str sampleEnvNoCookie.now)).getField "time" =
      some (Json.str sampleEnvNoCookie.now) ∧
    (postPostsHandler sampleBody sampleEnvNoCookie [] []).outcome =
      .response 200 (jsonToString (sampleBody.setField "time" (Json.str sampleEnvNoCookie.now)))
        (some "sid=abc123") ∧
    (postPostsHandler sampleBody sampleEnvNoCookie [] []).posts =
      KV.put [] (sampleEnvNoCookie.now ++ "-" ++ "alice")
        (jsonToString (sampleBody.setField "time" (Json.str sampleEnvNoCookie.now))) ∧
    updateLikesKey (sampleBody.setField "time" (Json.str sampleEnvNoCookie.now)) =
      some (sampleEnvNoCookie.now ++ "-" ++ "alice") :=
  C3_key_reconstruction sampleBody sampleEnvNoCookie [] [] (Json.str "t0") (Json.str "alice")
    "alice" "sid=abc123" rfl rfl rfl (by decide) rfl (Or.inl rfl) rfl

/-- C7: `POST /updatelikes` with string `time` and `username` fields
reconstructs the single key `time + "-" + username`, deletes the existing
entry, and writes the full incoming body back under exactly that key:
loading the key afterwards yields the incoming post, every other key is
untouched, and the key occurs exactly once in the listing (no duplicate). -/
theorem C7_update_likes_roundtrip (body : Json) (posts : KV)
    (nj tj : Json) (uname tstr : String)
    (hn : body.getField "username" = some nj)
    (hs : stripQuotes (jsonToString nj) = some uname)
    (ht : body.getField "time" = some tj)
    (hts : stripQuotes (jsonToString tj) = some tstr) :
    updateLikesHandler body posts =
      { outcome := .response 200 (jsonToString body) none
        store := KV.put (KV.delete posts (tstr ++ "-" ++ uname)) (tstr ++ "-" ++ uname)
                   (jsonToString body) } ∧
    KV.get (updateLikesHandler body posts).store (tstr ++ "-" ++ uname) =
      some (jsonToString body) ∧
    (∀ k, k ≠ tstr ++ "-" ++ uname →
      KV.get (updateLikesHandler body posts).store k = KV.get posts k) ∧
    (KV.keys (updateLikesHandler body posts).store).count (tstr ++ "-" ++ uname) = 1 ∧
    ((KV.keys posts).Nodup → (KV.keys (updateLikesHandler body posts).store).Nodup) := by
  have hkey : updateLikesKey body = some (tstr ++ "-" ++ uname) := by
    cases body with
    | obj fs => simp [updateLikesKey, hn, hs, ht, hts]
    | null => simp [Json.getField] at hn
    | bool b => simp [Json.getField] at hn
    | num n => simp [Json.getField] at hn
    | str s => simp [Json.getField] at hn
    | arr xs => simp [Json.getField] at hn
  have h1 : updateLikesHandler body posts =
      { outcome := .response 200 (jsonToString body) none
        store := KV.put (KV.delete posts (tstr ++ "-" ++ uname)) (tstr ++ "-" ++ uname)
                   (jsonToString body) } := by
    simp [updateLikesHandler, hkey]
  refine ⟨h1, ?_, ?_, ?_, ?_⟩
  · rw [h1]
    exact KV.get_put_self _ _ _
  · intro k hk
    rw [h1]
    show KV.get (KV.put (KV.delete posts _) _ _) k = KV.get posts k
    rw [KV.get_put_ne _ _ _ _ hk, KV.get_delete_ne _ _ _ hk]
  · rw [h1]
    exact KV.count_keys_put _ _ _
  · intro hnd
    rw [h1]
    exact KV.nodup_keys_put _ _ _ (KV.nodup_keys_delete _ _ hnd)

/-- Witness for C7: a like-update on a concrete post replaces the prior
value under the same key, which afterwards occurs exactly once. -/
theorem C7_update_likes_roundtrip_witness :
    KV.get (updateLikesHandler likesBody
        [("2024-01-01T00:00:00+00:00-alice", "old")]).store
      ("2024-01-01T00:00:00+00:00" ++ "-" ++ "alice") = some (jsonToString likesBody) ∧
    (KV.keys (updateLikesHandler likesBody
        [("2024-01-01T00:00:00+00:00-alice", "old")]).store).count
      ("2024-01-01T00:00:00+00:00" ++ "-" ++ "alice") = 1 :=
  ⟨(C7_update_likes_roundtrip likesBody [("2024-01-01T00:00:00+00:00-alice", "old")]
      (Json.str "alice") (Json.str "2024-01-01T00:00:00+00:00")
      "alice" "2024-01-01T00:00:00+00:00" rfl rfl rfl rfl).2.1,
   (C7_update_likes_roundtrip likesBody [("2024-01-01T00:00:00+00:00-alice", "old")]
      (Json.str "alice") (Json.str "2024-01-01T00:00:00+00:00")
      "alice" "2024-01-01T00:00:00+00:00" rfl rfl rfl rfl).2.2.2.1⟩

/-- C8: `POST /users` registration is an unconditional put keyed by the
(quote-stripped) username: both of two successive calls answer 200 echoing
the body, the second silently overwrites the stored registration timestamp
with the new one (last-write-wins), and every other key is unchanged. -/
theorem C8_register_last_write_wins (body : Json) (users : KV)
    (now1 now2 : String) (nj : Json) (uname : String)
    (hn : body.getField "username" = some nj)
    (hs : stripQuotes (jsonToString nj) = some uname) :
    (postUsersHandler body now1 users).outcome = .response 200 (jsonToString body) none ∧
    (postUsersHandler body now2 (postUsersHandler body now1 users).store).outcome =
      .response 200 (jsonToString body) none ∧
    KV.get (postUsersHandler body now1 users).store uname = some now1 ∧
    KV.get (postUsersHandler body now2 (postUsersHandler body now1 users).store).store uname =
      some now2 ∧
    (∀ k, k ≠ uname →
      KV.get (postUsersHandler body now2 (postUsersHandler body now1 users).store).store k =
        KV.get users k) := by
  have hrec : ∀ (now : String) (ukv : KV), postUsersHandler body now ukv =
      { outcome := .response 200 (jsonToString body) none
        store := KV.put ukv uname now } := by
    intro now ukv
    cases body with
    | obj fs => simp [postUsersHandler, hn, hs]
    | null => simp [Json.getField] at hn
    | bool b => simp [Json.getField] at hn
    | num n => simp [Json.getField] at hn
    | str s => simp [Json.getField] at hn
    | arr xs => simp [Json.getField] at hn
  refine ⟨?_, ?_, ?_, ?_, ?_⟩
  · rw [hrec now1 users]
  · rw [hrec now1 users, hrec now2 (KV.put users uname now1)]
  · rw [hrec now1 users]
    exact KV.get_put_self _ _ _
  · rw [hrec now1 users, hrec now2 (KV.put users uname now1)]
    exact KV.get_put_self _ _ _
  · intro k hk
    rw [hrec now1 users, hrec now2 (KV.put users uname now1)]
    show KV.get (KV.put (KV.put users uname now1) uname now2) k = KV.get users k
    rw [KV.get_put_ne _ _ _ _ hk, KV.get_put_ne _ _ _ _ hk]

/-- Witness for C8: registering `alice` twice over a registry holding `bob`
overwrites her timestamp and leaves `bob` alone. -/
theorem C8_register_last_write_wins_witness :
    KV.get (postUsersHandler userBody "t1" [("bob", "t0")]).store "alice" = some "t1" ∧
    KV.get (postUsersHandler userBody "t2"
        (postUsersHandler userBody "t1" [("bob", "t0")]).store).store "alice" = some "t2" ∧
    KV.get (postUsersHandler userBody "t2"
        (postUsersHandler userBody "t1" [("bob", "t0")]).store).store "bob" =
      KV.get [("bob", "t0")] "bob" :=
  ⟨(C8_register_last_write_wins userBody [("bob", "t0")] "t1" "t2"
      (Json.str "alice") "alice" rfl rfl).2.2.1,
   (C8_register_last_write_wins userBody [("bob", "t0")] "t1" "t2"
      (Json.str "alice") "alice" rfl rfl).2.2.2.1,
   (C8_register_last_write_wins userBody [("bob", "t0")] "t1" "t2"
      (Json.str "alice") "alice" rfl rfl).2.2.2.2 "bob" (by decide)⟩

end CfSocialMedia
